import Mathlib

/-!
Shallow embedding of the machine-provisioning core of
machine-controller-manager-provider-ironcore-metal:

* `pkg/metal/create_machine.go` — the `CreateMachine` orchestration:
  CAPI IP-address allocation (`applyIPAddresses` / `applyCapiIPAddress`),
  ignition assembly (`applyIgnition`), and server-claim application
  (`applyServerClaim`);
* `pkg/client/provider.go` — the dynamic metal-cluster client provider
  (`setMetalClient`, the kubeconfig-change reload loop), plus an
  interleaving transition system for its concurrency behaviour.

Remote control-plane interaction is modelled by an explicit environment
(`Env`): reads are observations indexed by a logical clock (one tick per
`Get` call), and every attempted mutating write is recorded, in program
order, in a trace of `WriteOp`s whose outcomes are environment-determined.
-/

namespace IroncoreMetal

/-! ## JSON-like metadata values and the deep merge

`map[string]any` metadata trees are modelled as `JVal`; Go's unordered maps
become association lists with a fixed, deterministic field order
(existing keys of the destination first, in order, then new keys of the
source, in order). -/

/-- JSON-like values: the shape of the `map[string]any` metadata trees. -/
inductive JVal where
  | null : JVal
  | num (n : Int) : JVal
  | str (s : String) : JVal
  | obj (fields : List (String × JVal)) : JVal

/-- Key lookup in an object's field list. -/
def lookupJ : List (String × JVal) → String → Option JVal
  | [], _ => none
  | (k, v) :: rest, key => if k = key then some v else lookupJ rest key

/-- The fields of the source object whose keys do not occur in the
destination; these are appended after the merged destination fields. -/
def srcExtras (dkeys : List String) (s : List (String × JVal)) : List (String × JVal) :=
  s.filter (fun p => !(dkeys.contains p.1))

mutual

/-- Deep merge of two `JVal`s with override semantics: models
`mergo.Merge(&dst, src, mergo.WithOverride)` as invoked at the
`applyIgnition` call site (the mergo library is an external collaborator;
its override semantics follow its documented contract: source wins on
conflicting leaves, maps are merged recursively, destination-only keys are
kept). -/
def mergeVal : JVal → JVal → JVal
  | JVal.obj d, JVal.obj s => JVal.obj (mergeDst d s ++ srcExtras (d.map Prod.fst) s)
  | _, s => s
termination_by v _ => sizeOf v

/-- Merge the source object into the destination's fields, keeping the
destination's field order. -/
def mergeDst : List (String × JVal) → List (String × JVal) → List (String × JVal)
  | [], _ => []
  | (k, v) :: rest, s =>
    (k, match lookupJ s k with
        | some sv => mergeVal v sv
        | none => v) :: mergeDst rest s
termination_by d _ => sizeOf d

end

/-- `applyIgnition`'s merge loop: each address-metadata fragment is merged
into the base in list order (`for _, metaData := range addressMetaData`). -/
def composeMetadata (base : JVal) (frags : List JVal) : JVal :=
  frags.foldl mergeVal base

/-! ## Control-plane data model -/

/-- A namespaced object identity (`client.ObjectKey`). -/
structure ObjectKey where
  ns : String
  name : String
deriving DecidableEq

/-- `IPAddressClaimStatus`: the claim is bound when `AddressRef.Name` is
non-empty. -/
structure IPAddressClaimStatus where
  addressRefName : String
deriving DecidableEq

/-- A CAPI `IPAddressClaim` as observed from the control plane. -/
structure IPAddressClaim where
  name : String
  ns : String
  status : IPAddressClaimStatus
deriving DecidableEq

/-- A CAPI `IPAddress`: concrete address, prefix length and gateway. -/
structure IPAddress where
  address : String
  prefixLen : Int
  gateway : String
deriving DecidableEq

/-- `IPAMRef` of an `IPAMConfig` entry: the pool selector
(API group, kind, name). -/
structure IPAMRef where
  apiGroup : String
  kind : String
  name : String
deriving DecidableEq

/-- One entry of `providerSpec.IPAMConfig`: a metadata key and an optional
pool selector. -/
structure IPAMConfig where
  metadataKey : String
  ipamRef : Option IPAMRef
deriving DecidableEq

/-- `capiv1beta1.GroupVersion.Group`, the API group gating CAPI handling. -/
def capiAPIGroup : String := "ipam.cluster.x-k8s.io"

/-- `utilvalidation.DNS1123SubdomainMaxLength`. -/
def DNS1123SubdomainMaxLength : Nat := 253

/-- The decoded `ProviderSpec` fields read by the creation path. -/
structure ProviderSpec where
  ipamConfig : List IPAMConfig
  metadata : Option JVal
  ignition : String
  dnsServers : List String
  ignitionOverride : Bool
  labels : List (String × String)
  serverLabels : List (String × String)
  image : String

/-- The input struct handed to the external ignition renderer
(`ignition.Config`). -/
structure IgnitionConfig where
  hostname : String
  userData : String
  metaData : JVal
  ignition : String
  dnsServers : List String
  ignitionOverride : Bool

/-- The ignition secret built by `applyIgnition`. -/
structure IgnitionSecret where
  name : String
  ns : String
  data : List (String × String)

/-- The `ServerClaim` object built by `applyServerClaim`. -/
structure ServerClaim where
  name : String
  ns : String
  labels : List (String × String)
  power : String
  serverSelectorLabels : List (String × String)
  ignitionSecretRefName : String
  image : String

/-- `driver.CreateMachineResponse`. -/
structure CreateMachineResponse where
  providerID : String
  nodeName : String

/-- Result of a control-plane `Get`. -/
inductive GetRes (α : Type) where
  | found (a : α) : GetRes α
  | notFound : GetRes α
  | errRes (e : String) : GetRes α

/-- The write method of a control-plane mutation: `create` is a plain
`client.Create`; `applyPatch` is a server-side apply
(`client.Patch(..., client.Apply, fieldOwner, client.ForceOwnership)`). -/
inductive WriteKind where
  | create : WriteKind
  | applyPatch : WriteKind
deriving DecidableEq

/-- One attempted mutating write issued to the control plane, recorded in
program order. -/
structure WriteOp where
  kind : WriteKind
  objKind : String
  key : ObjectKey
deriving DecidableEq

/-- The environment playing the remote control plane and the external
collaborators: claim observations are indexed by a logical clock (one tick
per `Get`), write outcomes and the renderer are environment functions. -/
structure Env where
  claims : Nat → ObjectKey → GetRes IPAddressClaim
  addrs : ObjectKey → GetRes IPAddress
  createRes : ObjectKey → Option String
  patchRes : String → ObjectKey → Option String
  render : IgnitionConfig → Except String String
  validSpec : Bool

/-! ## Network identity allocation (`applyCapiIPAddress`) -/

/-- The claim name `fmt.Sprintf("%s-%s", machineName, networkRef.MetadataKey)`,
truncated to `DNS1123SubdomainMaxLength` when longer
(`ipAddrClaimName[:utilvalidation.DNS1123SubdomainMaxLength]`). -/
def ipAddrClaimNameFor (machineName metadataKey : String) : String :=
  let n := machineName ++ "-" ++ metadataKey
  if DNS1123SubdomainMaxLength < n.length then String.mk (n.data.take DNS1123SubdomainMaxLength)
  else n

/-- `wait.PollUntilContextTimeout` interval: `time.Millisecond*50`. -/
def pollIntervalMs : Nat := 50

/-- `wait.PollUntilContextTimeout` timeout: `time.Millisecond*340`. -/
def pollTimeoutMs : Nat := 340

/-- Number of condition evaluations of the poll loop: with `immediate=true`
the condition runs at 0ms and then every 50ms while the 340ms deadline has
not elapsed (ticks 0,50,...,300). -/
def pollAttempts : Nat := pollTimeoutMs / pollIntervalMs + 1

/-- The poll loop of `applyCapiIPAddress`: re-`Get` the claim until its
`Status.AddressRef.Name` is non-empty; a non-NotFound `Get` error aborts;
exhausting the deadline yields the context's deadline error. Returns the
bound claim and the advanced clock. -/
def pollUntilBound (env : Env) (key : ObjectKey) : Nat → Nat → Except String IPAddressClaim × Nat
  | t, 0 => (.error "context deadline exceeded", t)
  | t, Nat.succ fuel =>
    match env.claims t key with
    | .errRes e => (.error e, t + 1)
    | .notFound => pollUntilBound env key (t + 1) fuel
    | .found c =>
      if c.status.addressRefName = "" then pollUntilBound env key (t + 1) fuel
      else (.ok c, t + 1)

/-- The final step of `applyCapiIPAddress`: `Get` the `IPAddress` named by
the claim's `Status.AddressRef` and build the metadata fragment
`{metadataKey: {ip, prefix, gateway}}`. Any `Get` error fails the call. -/
def resolveIPAddress (env : Env) (metadataKey : String) (c : IPAddressClaim) (t : Nat)
    (w : List WriteOp) : Except String JVal × Nat × List WriteOp :=
  match env.addrs ⟨c.ns, c.status.addressRefName⟩ with
  | .found a =>
    (.ok (JVal.obj [(metadataKey,
        JVal.obj [("ip", .str a.address), ("prefix", .num a.prefixLen),
                  ("gateway", .str a.gateway)])]), t + 1, w)
  | .notFound => (.error "ipaddresses not found", t + 1, w)
  | .errRes e => (.error e, t + 1, w)

/-- The object key under which the claim for one machine / metadata-key
pair lives (`ipAddrClaimKey` in the source). -/
def claimKey (mns machineName metadataKey : String) : ObjectKey :=
  ⟨mns, ipAddrClaimNameFor machineName metadataKey⟩

/-- The single plain-create write of the claim. -/
def claimCreateOp (mns machineName metadataKey : String) : WriteOp :=
  ⟨.create, "IPAddressClaim", claimKey mns machineName metadataKey⟩

/-- `applyCapiIPAddress`: look up the claim; if found and unbound fail with
"IP address claim isn't ready"; if found and bound resolve the address; if
not found, require an `IPAMRef`, create the claim with a plain `Create`,
poll until bound or deadline, then resolve. Returns the fragment, the
advanced clock, and the attempted writes in program order. -/
def applyCapiIPAddress (env : Env) (mns : String) (networkRef : IPAMConfig)
    (machineName : String) (t : Nat) : Except String JVal × Nat × List WriteOp :=
  match env.claims t (claimKey mns machineName networkRef.metadataKey) with
  | .errRes e => (.error e, t + 1, [])
  | .found c =>
    if c.status.addressRefName = "" then (.error "IP address claim isn't ready", t + 1, [])
    else resolveIPAddress env networkRef.metadataKey c (t + 1) []
  | .notFound =>
    match networkRef.ipamRef with
    | none => (.error "ipamRef of an ipamConfig is not set", t + 1, [])
    | some _ =>
      match env.createRes (claimKey mns machineName networkRef.metadataKey) with
      | some e =>
        (.error ("error creating IP: " ++ e), t + 1,
          [claimCreateOp mns machineName networkRef.metadataKey])
      | none =>
        match pollUntilBound env (claimKey mns machineName networkRef.metadataKey) (t + 1)
            pollAttempts with
        | (.error e, t') =>
          (.error e, t', [claimCreateOp mns machineName networkRef.metadataKey])
        | (.ok c, t') =>
          resolveIPAddress env networkRef.metadataKey c t'
            [claimCreateOp mns machineName networkRef.metadataKey]

/-- `applyIPAddresses`: iterate the spec's `IPAMConfig` list in order,
handling only entries whose `IPAMRef` is present and carries the CAPI API
group (all other entries are skipped), short-circuiting on the first
failure. -/
def applyIPAddresses (env : Env) (mns : String) (cfgs : List IPAMConfig)
    (machineName : String) (t : Nat) : Except String (List JVal) × Nat × List WriteOp :=
  match cfgs with
  | [] => (.ok [], t, [])
  | cfg :: rest =>
    match cfg.ipamRef with
    | some ref =>
      if ref.apiGroup = capiAPIGroup then
        match applyCapiIPAddress env mns cfg machineName t with
        | (.error e, t', w) => (.error e, t', w)
        | (.ok frag, t', w) =>
          match applyIPAddresses env mns rest machineName t' with
          | (.error e, t'', w') => (.error e, t'', w ++ w')
          | (.ok frags, t'', w') => (.ok (frag :: frags), t'', w ++ w')
      else applyIPAddresses env mns rest machineName t
    | none => applyIPAddresses env mns rest machineName t

/-! ## Ignition assembly and server claim (`applyIgnition`, `applyServerClaim`) -/

/-- Modelled from the spec: `getIgnitionNameForMachine` is not part of the
provided sources; per the end-to-end scenario the artifact for machine `m1`
is named `m1-ignition`. -/
def getIgnitionNameForMachine (machineName : String) : String :=
  machineName ++ "-ignition"

/-- Modelled from the spec: `getProviderIDForServerClaim` is not part of the
provided sources; the provider identifier is derived from the reservation's
identity (namespace and name). -/
def getProviderIDForServerClaim (sc : ServerClaim) : String :=
  sc.ns ++ "/" ++ sc.name

/-- String lookup in the machine secret's data. -/
def lookupStr : List (String × String) → String → Option String
  | [], _ => none
  | (k, v) :: rest, key => if k = key then some v else lookupStr rest key

/-- The machine secret handed in with the request. -/
structure MachineSecret where
  data : List (String × String)

/-- `applyIgnition`: require `userData` in the machine secret, default a nil
metadata tree to the empty map, merge the address fragments into it in list
order with override semantics, render the ignition content via the external
collaborator, and build the ignition secret object (no write happens
here). -/
def applyIgnition (env : Env) (machineName mns : String) (sec : MachineSecret)
    (spec : ProviderSpec) (addressMetaData : List JVal) : Except String IgnitionSecret :=
  match lookupStr sec.data "userData" with
  | none => .error ("failed to find user-data in machine secret")
  | some userData =>
    let base := match spec.metadata with
      | none => JVal.obj []
      | some m => m
    let merged := composeMetadata base addressMetaData
    match env.render ⟨machineName, userData, merged, spec.ignition, spec.dnsServers,
        spec.ignitionOverride⟩ with
    | .error e =>
      .error ("failed to create ignition file for machine " ++ machineName ++ ": " ++ e)
    | .ok content =>
      .ok ⟨getIgnitionNameForMachine machineName, mns, [("ignition", content)]⟩

/-- `applyServerClaim`: build the `ServerClaim` referencing the ignition
secret by name, then server-side-apply first the `ServerClaim` and then the
ignition secret (both with forced ownership), in that order, failing on the
first patch error. -/
def applyServerClaim (env : Env) (machineName mns : String) (spec : ProviderSpec)
    (ignitionSecret : IgnitionSecret) : Except String ServerClaim × List WriteOp :=
  match env.patchRes "ServerClaim" ⟨mns, machineName⟩ with
  | some e =>
    (.error ("error applying metal machine: " ++ e),
      [⟨.applyPatch, "ServerClaim", ⟨mns, machineName⟩⟩])
  | none =>
    match env.patchRes "Secret" ⟨ignitionSecret.ns, ignitionSecret.name⟩ with
    | some e =>
      (.error ("error applying ignition secret: " ++ e),
        [⟨.applyPatch, "ServerClaim", ⟨mns, machineName⟩⟩,
         ⟨.applyPatch, "Secret", ⟨ignitionSecret.ns, ignitionSecret.name⟩⟩])
    | none =>
      (.ok ⟨machineName, mns, spec.labels, "On", spec.serverLabels, ignitionSecret.name,
          spec.image⟩,
        [⟨.applyPatch, "ServerClaim", ⟨mns, machineName⟩⟩,
         ⟨.applyPatch, "Secret", ⟨ignitionSecret.ns, ignitionSecret.name⟩⟩])

/-! ## The orchestrator (`CreateMachine`) -/

/-- Modelled from the spec: `apiv1alpha1.ProviderName` is not part of the
provided sources; it is the driver's identity tag that the request's
provider field must match. -/
def ProviderName : String := "ironcore-metal"

/-- `req.Machine`, present unless the request is incomplete. -/
structure Machine where
  name : String

/-- `req.MachineClass`: the provider tag and the decode result of the raw
provider spec (`none` models a JSON unmarshal failure). -/
structure MachineClass where
  provider : String
  providerSpecRaw : Option ProviderSpec

/-- `driver.CreateMachineRequest`; `none` fields model nil pointers. -/
structure CreateMachineRequest where
  machine : Option Machine
  machineClass : Option MachineClass
  secret : Option MachineSecret

/-- `validateProviderSpecAndSecret`: decode the raw provider spec and run
the external validation collaborator (its verdict is the environment's
`validSpec`). -/
def validateProviderSpecAndSecret (env : Env) (mc : MachineClass) :
    Except String ProviderSpec :=
  match mc.providerSpecRaw with
  | none => .error "failed to unmarshal provider spec"
  | some spec =>
    if env.validSpec then .ok spec
    else .error "failed to validate provider spec and secret"

/-- `CreateMachine`: reject incomplete requests and provider mismatches,
validate the spec, allocate network identities, assemble the ignition
secret, apply the server claim and ignition secret, and answer with the
provider identifier and node name. The second component is the trace of all
attempted control-plane writes in program order. -/
def CreateMachine (env : Env) (mns : String) (req : CreateMachineRequest) :
    Except String CreateMachineResponse × List WriteOp :=
  match req.machine, req.machineClass, req.secret with
  | some m, some mc, some sec =>
    if mc.provider = ProviderName then
      match validateProviderSpecAndSecret env mc with
      | .error e => (.error e, [])
      | .ok spec =>
        match applyIPAddresses env mns spec.ipamConfig m.name 0 with
        | (.error e, _, w) => (.error e, w)
        | (.ok frags, _, w1) =>
          match applyIgnition env m.name mns sec spec frags with
          | .error e => (.error e, w1)
          | .ok ignitionSecret =>
            match applyServerClaim env m.name mns spec ignitionSecret with
            | (.error e, w2) => (.error e, w1 ++ w2)
            | (.ok sc, w2) =>
              (.ok ⟨getProviderIDForServerClaim sc, sc.name⟩, w1 ++ w2)
    else
      (.error ("requested provider '" ++ mc.provider ++ "' is not supported by the driver '"
        ++ ProviderName ++ "'"), [])
  | _, _, _ => (.error "received empty request", [])

/-! ## Dynamic client provider (`pkg/client/provider.go`) -/

/-- An abstract, fully built control-plane client handle
(`client.Client`); a handle value exists only once `client.New`
succeeded. -/
structure ClientHandle where
  id : Nat
deriving DecidableEq

/-- The provider's shared mutable state: the replaceable client handle
(`Provider.Client`); `none` models the nil handle before first
construction. -/
structure ProviderState where
  client : Option ClientHandle
deriving DecidableEq

/-- `setMetalClient`: derive the rest config from the client configuration,
construct a new client, and only then replace the shared handle; any
failure leaves the handle untouched. Rest configs are abstracted as `Nat`
tokens; `clientNew` plays `client.New`. -/
def setMetalClient (p : ProviderState) (restConfigRes : Except String Nat)
    (clientNew : Nat → Except String ClientHandle) : Except String Unit × ProviderState :=
  match restConfigRes with
  | .error e => (.error ("unable to get metal cluster rest config: " ++ e), p)
  | .ok rc =>
    match clientNew rc with
    | .error e => (.error ("failed to create client: " ++ e), p)
    | .ok c => (.ok (), { p with client := some c })

/-- One iteration of the kubeconfig-watch loop of
`reloadMetalClientOnConfigChange` for a file-change event: events for other
paths are ignored; a `getClientConfig` failure is logged and skipped; a
`setMetalClient` failure is logged — in every failure case the previous
handle is retained. Client configurations are abstracted as `Nat` tokens;
`getClientConfigRes` plays `getClientConfig`, `clientConfigOf` plays
`clientConfig.ClientConfig()`. -/
def handleConfigChangeEvent (p : ProviderState) (kubeconfigPath eventName : String)
    (getClientConfigRes : Except String Nat) (clientConfigOf : Nat → Except String Nat)
    (clientNew : Nat → Except String ClientHandle) : ProviderState :=
  if eventName = kubeconfigPath then
    match getClientConfigRes with
    | .error _ => p
    | .ok cfg => (setMetalClient p (clientConfigOf cfg) clientNew).2
  else p

/-! ## Interleaving model of concurrent requests and client reloads

The request path (`applyIPAddresses` / `applyServerClaim`) acquires the
provider mutex before reading `Provider.Client` and holds it for the whole
operation; the watcher goroutine (`setMetalClient`) acquires the same mutex
around `client.New` and the handle assignment. The interleaving semantics
below has those mutex-protected accesses as atomic steps: any number of
reader threads (requests) and the single writer thread (the watch loop)
interleave freely subject to the lock. -/

/-- Program counter of one reader (request) thread. -/
inductive ReaderPC where
  | idle : ReaderPC
  | hasLock : ReaderPC
  | readDone (observed : Option ClientHandle) : ReaderPC
deriving DecidableEq

/-- Program counter of the single writer (watch-loop) thread. -/
inductive WriterPC where
  | idle : WriterPC
  | hasLock : WriterPC
deriving DecidableEq

/-- Who currently holds the provider mutex. -/
inductive LockOwner where
  | reader (i : Nat) : LockOwner
  | writer : LockOwner
deriving DecidableEq

/-- Global state of the interleaved system: the shared handle, the mutex,
every reader's program counter, and the writer's program counter. -/
structure SysState where
  handle : Option ClientHandle
  lock : Option LockOwner
  readers : Nat → ReaderPC
  writer : WriterPC

/-- Pointwise update of the reader program counters. -/
def updReaders (f : Nat → ReaderPC) (i : Nat) (v : ReaderPC) : Nat → ReaderPC :=
  fun j => if j = i then v else f j

/-- Interleaved steps: readers lock, read the shared handle, and unlock;
the writer locks, possibly assigns a freshly built handle (`client.New`
succeeded) or assigns nothing (`client.New` failed), and unlocks. Each
constructor is one atomic transition. -/
inductive SysStep : SysState → SysState → Prop where
  | readerAcquire (s : SysState) (i : Nat) :
      s.lock = none → s.readers i = .idle →
      SysStep s { s with lock := some (.reader i), readers := updReaders s.readers i .hasLock }
  | readerRead (s : SysState) (i : Nat) :
      s.lock = some (.reader i) → s.readers i = .hasLock →
      SysStep s { s with readers := updReaders s.readers i (.readDone s.handle) }
  | readerRelease (s : SysState) (i : Nat) (obs : Option ClientHandle) :
      s.lock = some (.reader i) → s.readers i = .readDone obs →
      SysStep s { s with lock := none, readers := updReaders s.readers i .idle }
  | writerAcquire (s : SysState) :
      s.lock = none → s.writer = .idle →
      SysStep s { s with lock := some .writer, writer := .hasLock }
  | writerAssign (s : SysState) (c : ClientHandle) :
      s.lock = some .writer → s.writer = .hasLock →
      SysStep s { s with handle := some c }
  | writerRelease (s : SysState) :
      s.lock = some .writer →
      SysStep s { s with lock := none, writer := .idle }

/-- The state right after a successful `NewProviderAndNamespace`: the
initial client `c0` is installed, the mutex is free, every thread is
idle. Requests are only issued against a successfully initialized
provider. -/
def initialSys (c0 : ClientHandle) : SysState :=
  { handle := some c0, lock := none, readers := fun _ => .idle, writer := .idle }

/-- States reachable from the initialized provider under arbitrary
interleavings. -/
def SysReachable (c0 : ClientHandle) (s : SysState) : Prop :=
  Relation.ReflTransGen SysStep (initialSys c0) s

/-- The safety property of the shared handle: it is always a fully built
client (never nil), and every completed read observed a fully built
client. -/
def HandleSafe (s : SysState) : Prop :=
  (∃ h, s.handle = some h) ∧
  ∀ i obs, s.readers i = ReaderPC.readDone obs → ∃ h, obs = some h

/-! ## Auxiliary predicates and concrete scenario data -/

/-- A `JVal` that is not an object — a leaf of the metadata tree. -/
def isLeafB : JVal → Bool
  | JVal.obj _ => false
  | _ => true

/-- A claim observation that is not bound: the claim is absent, or it is
present with an empty `Status.AddressRef.Name`. -/
def notBoundObs : GetRes IPAddressClaim → Bool
  | .notFound => true
  | .found c => c.status.addressRefName == ""
  | .errRes _ => false

/-- A trace consisting solely of plain creates of IP address claims. -/
def OnlyClaimCreates (w : List WriteOp) : Prop :=
  ∀ x ∈ w, x.kind = WriteKind.create ∧ x.objKind = "IPAddressClaim"

/-- A provider spec with no IPAM entries (scenario data). -/
def exSpecEmpty : ProviderSpec := ⟨[], none, "", [], false, [], [], "img"⟩

/-- An environment in which every control-plane operation succeeds and no
claim exists (scenario data). -/
def exEnvOk : Env :=
  { claims := fun _ _ => .notFound
    addrs := fun _ => .notFound
    createRes := fun _ => none
    patchRes := fun _ _ => none
    render := fun _ => .ok "content"
    validSpec := true }

/-- A request for machine `m1` without IPAM entries (scenario data). -/
def exReqNoIPAM : CreateMachineRequest :=
  ⟨some ⟨"m1"⟩, some ⟨ProviderName, some exSpecEmpty⟩, some ⟨[("userData", "ud")]⟩⟩

/-- The claim `m1-eth0` bound to address `addr-1` (scenario data). -/
def exBoundClaim : IPAddressClaim := ⟨"m1-eth0", "ns", ⟨"addr-1"⟩⟩

/-- The claim `m1-eth0` not yet bound (scenario data). -/
def exUnboundClaim : IPAddressClaim := ⟨"m1-eth0", "ns", ⟨""⟩⟩

/-- An IPAM entry with key `eth0` drawing from pool `pool-a` via the CAPI
API group (scenario data). -/
def exCfgEth0 : IPAMConfig := ⟨"eth0", some ⟨capiAPIGroup, "InClusterIPPool", "pool-a"⟩⟩

/-- An IPAM entry with key `eth0` and no pool selector (scenario data). -/
def exCfgNoRef : IPAMConfig := ⟨"eth0", none⟩

/-- An environment whose claim is observed unbound at the first read and
bound from every later read on — an allocator answering well within the
poll deadline (scenario data). -/
def exEnvLateBound : Env :=
  { claims := fun t _ => if t = 0 then .found exUnboundClaim else .found exBoundClaim
    addrs := fun _ => .found ⟨"10.0.0.5", 24, "10.0.0.1"⟩
    createRes := fun _ => none
    patchRes := fun _ _ => none
    render := fun _ => .ok "content"
    validSpec := true }

/-- An environment whose claim is absent at the first read and bound from
every later read on (scenario data). -/
def exEnvCreateBound : Env :=
  { claims := fun t _ => if t = 0 then .notFound else .found exBoundClaim
    addrs := fun _ => .found ⟨"10.0.0.5", 24, "10.0.0.1"⟩
    createRes := fun _ => none
    patchRes := fun _ _ => none
    render := fun _ => .ok "content"
    validSpec := true }

/-- A provider spec with the single IPAM entry `eth0` (scenario data). -/
def exSpecEth0 : ProviderSpec := ⟨[exCfgEth0], none, "", [], false, [], [], "img"⟩

/-- A request for machine `m1` with the single IPAM entry `eth0`
(scenario data). -/
def exReqEth0 : CreateMachineRequest :=
  ⟨some ⟨"m1"⟩, some ⟨ProviderName, some exSpecEth0⟩, some ⟨[("userData", "ud")]⟩⟩

/-- A 300-character machine name (scenario data for name truncation). -/
def exLongName : String := String.mk (List.replicate 300 'a')

/-- An environment whose claim is observed bound at every read
(scenario data). -/
def exEnvBound : Env :=
  { claims := fun _ _ => .found exBoundClaim
    addrs := fun _ => .found ⟨"10.0.0.5", 24, "10.0.0.1"⟩
    createRes := fun _ => none
    patchRes := fun _ _ => none
    render := fun _ => .ok "content"
    validSpec := true }

/-! # Theorems -/

/-! ## Deep-merge lemmas -/

/-- Merging a leaf source value overrides the destination value. -/
theorem mergeVal_leaf (d v : JVal) (h : isLeafB v = true) : mergeVal d v = v := by
  cases d <;> cases v <;> simp_all [mergeVal, isLeafB]

/-- Lookup distributes over append when the key is found on the left. -/
theorem lookupJ_append_some (l1 l2 : List (String × JVal)) (k : String) (v : JVal)
    (h : lookupJ l1 k = some v) : lookupJ (l1 ++ l2) k = some v := by
  induction l1 with
  | nil => simp [lookupJ] at h
  | cons p rest ih =>
    obtain ⟨k1, v1⟩ := p
    by_cases hk : k1 = k <;> simp_all [lookupJ]

/-- Lookup distributes over append when the key is absent on the left. -/
theorem lookupJ_append_none (l1 l2 : List (String × JVal)) (k : String)
    (h : lookupJ l1 k = none) : lookupJ (l1 ++ l2) k = lookupJ l2 k := by
  induction l1 with
  | nil => simp [lookupJ]
  | cons p rest ih =>
    obtain ⟨k1, v1⟩ := p
    by_cases hk : k1 = k <;> simp_all [lookupJ]

/-- A key present in both objects maps, after `mergeDst`, to the merge of
the two values. -/
theorem lookupJ_mergeDst_both (d s : List (String × JVal)) (k : String) (dv sv : JVal)
    (hd : lookupJ d k = some dv) (hs : lookupJ s k = some sv) :
    lookupJ (mergeDst d s) k = some (mergeVal dv sv) := by
  induction d with
  | nil => simp [lookupJ] at hd
  | cons p rest ih =>
    obtain ⟨k1, v1⟩ := p
    by_cases hk : k1 = k
    · subst hk
      simp only [lookupJ, if_pos rfl] at hd
      cases hd
      simp [mergeDst, lookupJ, hs]
    · simp only [lookupJ, if_neg hk] at hd
      simp only [mergeDst, lookupJ, if_neg hk]
      exact ih hd

/-- A key absent from the destination stays absent in `mergeDst`. -/
theorem lookupJ_mergeDst_none (d s : List (String × JVal)) (k : String)
    (hd : lookupJ d k = none) : lookupJ (mergeDst d s) k = none := by
  induction d with
  | nil => simp [mergeDst, lookupJ]
  | cons p rest ih =>
    obtain ⟨k1, v1⟩ := p
    by_cases hk : k1 = k
    · simp [lookupJ, hk] at hd
    · simp only [lookupJ, if_neg hk] at hd
      simp only [mergeDst, lookupJ, if_neg hk]
      exact ih hd

/-- A key that lookup misses is not among the keys. -/
theorem not_mem_keys_of_lookupJ_none (d : List (String × JVal)) (k : String)
    (h : lookupJ d k = none) : k ∉ d.map Prod.fst := by
  induction d with
  | nil => simp
  | cons p rest ih =>
    obtain ⟨k1, v1⟩ := p
    by_cases hk : k1 = k
    · simp [lookupJ, hk] at h
    · simp only [lookupJ, if_neg hk] at h
      simp only [List.map_cons, List.mem_cons]
      rintro (he | hm)
      · exact hk he.symm
      · exact ih h hm

/-- For a key outside the destination's key set, lookup in the appended
source extras agrees with lookup in the source. -/
theorem lookupJ_srcExtras (dkeys : List String) (s : List (String × JVal)) (k : String)
    (hk : k ∉ dkeys) : lookupJ (srcExtras dkeys s) k = lookupJ s k := by
  induction s with
  | nil => rfl
  | cons p rest ih =>
    obtain ⟨k1, v1⟩ := p
    by_cases h1 : k1 ∈ dkeys
    · have hne : k1 ≠ k := fun he => hk (he ▸ h1)
      simp [srcExtras, List.filter_cons, h1, lookupJ, hne] at ih ⊢
      exact ih
    · simp only [srcExtras, List.filter_cons] at ih ⊢
      by_cases hk1 : k1 = k <;> simp_all [lookupJ]

/-- C7 general part: a leaf key of the source object wins in the merged
object. -/
theorem lookupJ_mergeVal_obj (d s : List (String × JVal)) (k : String) (v : JVal)
    (hs : lookupJ s k = some v) (hv : isLeafB v = true) :
    mergeVal (JVal.obj d) (JVal.obj s) =
      JVal.obj (mergeDst d s ++ srcExtras (d.map Prod.fst) s) ∧
    lookupJ (mergeDst d s ++ srcExtras (d.map Prod.fst) s) k = some v := by
  refine ⟨by simp [mergeVal], ?_⟩
  cases hd : lookupJ d k with
  | some dv =>
    have h2 := lookupJ_mergeDst_both d s k dv v hd hs
    rw [mergeVal_leaf dv v hv] at h2
    exact lookupJ_append_some _ _ _ _ h2
  | none =>
    rw [lookupJ_append_none _ _ _ (lookupJ_mergeDst_none d s k hd),
      lookupJ_srcExtras _ _ _ (not_mem_keys_of_lookupJ_none d k hd)]
    exact hs

/-! ## Trace-shape lemmas -/

/-- Resolving the bound address issues no writes beyond those already
recorded. -/
theorem resolveIPAddress_trace (env : Env) (mk : String) (c : IPAddressClaim) (t : Nat)
    (w : List WriteOp) : (resolveIPAddress env mk c t w).2.2 = w := by
  unfold resolveIPAddress
  cases env.addrs ⟨c.ns, c.status.addressRefName⟩ <;> rfl

/-- One allocation call issues either no write or exactly one plain create
of the claim. -/
theorem applyCapiIPAddress_trace (env : Env) (mns : String) (cfg : IPAMConfig)
    (name : String) (t : Nat) :
    (applyCapiIPAddress env mns cfg name t).2.2 = [] ∨
    (applyCapiIPAddress env mns cfg name t).2.2 = [claimCreateOp mns name cfg.metadataKey] := by
  rcases hc : env.claims t (claimKey mns name cfg.metadataKey) with c | _ | e
  · by_cases hb : c.status.addressRefName = "" <;>
      simp [applyCapiIPAddress, hc, hb, resolveIPAddress_trace]
  · rcases hr : cfg.ipamRef with _ | ref
    · simp [applyCapiIPAddress, hc, hr]
    · rcases hcr : env.createRes (claimKey mns name cfg.metadataKey) with _ | e
      · rcases hp : pollUntilBound env (claimKey mns name cfg.metadataKey) (t + 1)
          pollAttempts with ⟨r, t2⟩
        cases r <;> simp [applyCapiIPAddress, hc, hr, hcr, hp, resolveIPAddress_trace]
      · simp [applyCapiIPAddress, hc, hr, hcr]
  · simp [applyCapiIPAddress, hc]

/-- Concatenating traces of claim creates gives a trace of claim
creates. -/
theorem OnlyClaimCreates.append {a b : List WriteOp} (ha : OnlyClaimCreates a)
    (hb : OnlyClaimCreates b) : OnlyClaimCreates (a ++ b) := by
  intro x hx
  rcases List.mem_append.mp hx with h | h
  · exact ha x h
  · exact hb x h

/-- Every write of the allocation loop is a plain create of an IP address
claim. -/
theorem applyIPAddresses_creates (env : Env) (mns : String) (cfgs : List IPAMConfig)
    (name : String) (t : Nat) :
    OnlyClaimCreates (applyIPAddresses env mns cfgs name t).2.2 := by
  induction cfgs generalizing t with
  | nil => intro x hx; simp [applyIPAddresses] at hx
  | cons cfg rest ih =>
    have hcapi : OnlyClaimCreates (applyCapiIPAddress env mns cfg name t).2.2 := by
      rcases applyCapiIPAddress_trace env mns cfg name t with h | h <;> rw [h] <;>
        intro x hx <;> simp at hx
      rw [hx]
      exact ⟨rfl, rfl⟩
    cases hr : cfg.ipamRef with
    | none => simpa only [applyIPAddresses, hr] using ih t
    | some ref =>
      by_cases hg : ref.apiGroup = capiAPIGroup
      · simp only [applyIPAddresses, hr, hg, if_pos, eq_self_iff_true, if_true]
        rcases hip : applyCapiIPAddress env mns cfg name t with ⟨res, t2, w⟩
        rw [hip] at hcapi
        cases res with
        | error e => simpa using hcapi
        | ok frag =>
          have hrest := ih t2
          rcases hrec : applyIPAddresses env mns rest name t2 with ⟨res2, t3, w2⟩
          rw [hrec] at hrest
          cases res2 <;> simpa [hrec] using hcapi.append hrest
      · simpa only [applyIPAddresses, hr, hg, if_false] using ih t

/-- The two applies of `applyServerClaim` occur in the order server claim
then ignition secret; the trace is one of the two prefixes of that
sequence. -/
theorem applyServerClaim_trace (env : Env) (name mns : String) (spec : ProviderSpec)
    (secret : IgnitionSecret) :
    (applyServerClaim env name mns spec secret).2 =
      [⟨.applyPatch, "ServerClaim", ⟨mns, name⟩⟩] ∨
    (applyServerClaim env name mns spec secret).2 =
      [⟨.applyPatch, "ServerClaim", ⟨mns, name⟩⟩,
       ⟨.applyPatch, "Secret", ⟨secret.ns, secret.name⟩⟩] := by
  unfold applyServerClaim
  cases env.patchRes "ServerClaim" ⟨mns, name⟩ with
  | some e => simp
  | none => cases env.patchRes "Secret" ⟨secret.ns, secret.name⟩ with
    | some e => simp
    | none => simp

/-- A successful `applyServerClaim` performed exactly the two applies, in
the order server claim then ignition secret. -/
theorem applyServerClaim_ok (env : Env) (name mns : String) (spec : ProviderSpec)
    (secret : IgnitionSecret) (sc : ServerClaim)
    (h : (applyServerClaim env name mns spec secret).1 = .ok sc) :
    (applyServerClaim env name mns spec secret).2 =
      [⟨.applyPatch, "ServerClaim", ⟨mns, name⟩⟩,
       ⟨.applyPatch, "Secret", ⟨secret.ns, secret.name⟩⟩] := by
  unfold applyServerClaim at h ⊢
  rcases h1 : env.patchRes "ServerClaim" ⟨mns, name⟩ with _ | e
  all_goals rcases h2 : env.patchRes "Secret" ⟨secret.ns, secret.name⟩ with _ | e2
  all_goals simp_all

/-- Decomposition of any `CreateMachine` trace: some claim creates followed
by at most the server-claim apply and then the secret apply. -/
theorem createMachine_trace_shape (env : Env) (mns : String) (req : CreateMachineRequest) :
    ∃ w1 w2, (CreateMachine env mns req).2 = w1 ++ w2 ∧ OnlyClaimCreates w1 ∧
      (w2 = [] ∨ (∃ k, w2 = [⟨.applyPatch, "ServerClaim", k⟩]) ∨
       (∃ k1 k2, w2 = [⟨.applyPatch, "ServerClaim", k1⟩, ⟨.applyPatch, "Secret", k2⟩])) := by
  obtain ⟨om, omc, osec⟩ := req
  have hnil : OnlyClaimCreates ([] : List WriteOp) := by intro x hx; simp at hx
  cases om with
  | none => exact ⟨[], [], by simp [CreateMachine], hnil, .inl rfl⟩
  | some m =>
  cases omc with
  | none => exact ⟨[], [], by simp [CreateMachine], hnil, .inl rfl⟩
  | some mc =>
  cases osec with
  | none => exact ⟨[], [], by simp [CreateMachine], hnil, .inl rfl⟩
  | some sec =>
  simp only [CreateMachine]
  by_cases hp : mc.provider = ProviderName
  · rw [if_pos hp]
    cases hv : validateProviderSpecAndSecret env mc with
    | error e => exact ⟨[], [], by simp [hv], hnil, .inl rfl⟩
    | ok spec =>
      have hw1 := applyIPAddresses_creates env mns spec.ipamConfig m.name 0
      rcases hip : applyIPAddresses env mns spec.ipamConfig m.name 0 with ⟨res, t2, w1⟩
      rw [hip] at hw1
      cases res with
      | error e => exact ⟨w1, [], by simp [hv, hip], hw1, .inl rfl⟩
      | ok frags =>
        cases hig : applyIgnition env m.name mns sec spec frags with
        | error e => exact ⟨w1, [], by simp [hv, hip, hig], hw1, .inl rfl⟩
        | ok isec =>
          have hsh := applyServerClaim_trace env m.name mns spec isec
          rcases hsc : applyServerClaim env m.name mns spec isec with ⟨res2, w2⟩
          rw [hsc] at hsh
          simp only at hsh
          cases res2 with
          | error e =>
            refine ⟨w1, w2, by simp [hv, hip, hig, hsc], hw1, ?_⟩
            rcases hsh with h | h
            · exact .inr (.inl ⟨_, h⟩)
            · exact .inr (.inr ⟨_, _, h⟩)
          | ok sc =>
            refine ⟨w1, w2, by simp [hv, hip, hig, hsc], hw1, ?_⟩
            rcases hsh with h | h
            · exact .inr (.inl ⟨_, h⟩)
            · exact .inr (.inr ⟨_, _, h⟩)
  · rw [if_neg hp]
    exact ⟨[], [], by simp, hnil, .inl rfl⟩

/-- Decomposition of a successful `CreateMachine` trace: some claim creates
followed by exactly the server-claim apply and then the secret apply. -/
theorem createMachine_ok_decomp (env : Env) (mns : String) (req : CreateMachineRequest)
    (r : CreateMachineResponse) (h : (CreateMachine env mns req).1 = .ok r) :
    ∃ pre k1 k2, (CreateMachine env mns req).2 =
      pre ++ [⟨.applyPatch, "ServerClaim", k1⟩, ⟨.applyPatch, "Secret", k2⟩] ∧
      OnlyClaimCreates pre := by
  obtain ⟨om, omc, osec⟩ := req
  cases om with
  | none => simp [CreateMachine] at h
  | some m =>
  cases omc with
  | none => simp [CreateMachine] at h
  | some mc =>
  cases osec with
  | none => simp [CreateMachine] at h
  | some sec =>
  simp only [CreateMachine] at h ⊢
  by_cases hp : mc.provider = ProviderName
  · rw [if_pos hp] at h ⊢
    cases hv : validateProviderSpecAndSecret env mc with
    | error e => rw [hv] at h; simp at h
    | ok spec =>
      rw [hv] at h
      dsimp only at h ⊢
      have hw1 := applyIPAddresses_creates env mns spec.ipamConfig m.name 0
      rcases hip : applyIPAddresses env mns spec.ipamConfig m.name 0 with ⟨res, t2, w1⟩
      rw [hip] at h hw1
      cases res with
      | error e => simp at h
      | ok frags =>
        dsimp only at h ⊢
        cases hig : applyIgnition env m.name mns sec spec frags with
        | error e => rw [hig] at h; simp at h
        | ok isec =>
          rw [hig] at h
          dsimp only at h ⊢
          rcases hsc : applyServerClaim env m.name mns spec isec with ⟨res2, w2⟩
          rw [hsc] at h
          cases res2 with
          | error e => simp at h
          | ok sc =>
            have hok : (applyServerClaim env m.name mns spec isec).1 = .ok sc := by
              rw [hsc]
            have h2 := applyServerClaim_ok env m.name mns spec isec sc hok
            rw [hsc] at h2
            simp only at h2
            exact ⟨w1, ⟨mns, m.name⟩, ⟨isec.ns, isec.name⟩, by simp [h2], hw1⟩
  · rw [if_neg hp] at h
    simp at h

/-- A claim that is never observed bound exhausts the poll deadline. -/
theorem pollUntilBound_neverBound (env : Env) (key : ObjectKey)
    (hnb : ∀ u, notBoundObs (env.claims u key) = true) :
    ∀ (fuel t : Nat),
      pollUntilBound env key t fuel = (.error "context deadline exceeded", t + fuel) := by
  intro fuel
  induction fuel with
  | zero => intro t; simp [pollUntilBound]
  | succ n ih =>
    intro t
    unfold pollUntilBound
    cases h : env.claims t key with
    | errRes e =>
      have hb := hnb t
      rw [h] at hb
      simp [notBoundObs] at hb
    | notFound =>
      simp [ih (t + 1)]
      all_goals omega
    | found c =>
      have hb := hnb t
      rw [h] at hb
      simp only [notBoundObs, beq_iff_eq] at hb
      simp [hb, ih (t + 1)]
      all_goals omega

/-- A claim absent at the first read, never observed bound, with a
successful create: the allocation call creates once, polls to the deadline,
and fails with the context deadline error. -/
theorem applyCapiIPAddress_timeout (env : Env) (mns : String) (cfg : IPAMConfig)
    (name : String) (t : Nat) (ref : IPAMRef)
    (href : cfg.ipamRef = some ref)
    (h0 : env.claims t (claimKey mns name cfg.metadataKey) = .notFound)
    (hnb : ∀ u, notBoundObs (env.claims u (claimKey mns name cfg.metadataKey)) = true)
    (hcr : env.createRes (claimKey mns name cfg.metadataKey) = none) :
    applyCapiIPAddress env mns cfg name t =
      (.error "context deadline exceeded", t + 1 + pollAttempts,
        [claimCreateOp mns name cfg.metadataKey]) := by
  have hpoll :=
    pollUntilBound_neverBound env (claimKey mns name cfg.metadataKey) hnb pollAttempts (t + 1)
  simp [applyCapiIPAddress, h0, href, hcr, hpoll]

/-- The timeout of the previous lemma propagated through the allocation
loop for a single-entry IPAM list. -/
theorem applyIPAddresses_single_timeout (env : Env) (mns : String) (cfg : IPAMConfig)
    (name : String) (ref : IPAMRef)
    (href : cfg.ipamRef = some ref)
    (hgrp : ref.apiGroup = capiAPIGroup)
    (h0 : env.claims 0 (claimKey mns name cfg.metadataKey) = .notFound)
    (hnb : ∀ u, notBoundObs (env.claims u (claimKey mns name cfg.metadataKey)) = true)
    (hcr : env.createRes (claimKey mns name cfg.metadataKey) = none) :
    applyIPAddresses env mns [cfg] name 0 =
      (.error "context deadline exceeded", 0 + 1 + pollAttempts,
        [claimCreateOp mns name cfg.metadataKey]) := by
  have htimeout := applyCapiIPAddress_timeout env mns cfg name 0 ref href h0 hnb hcr
  simp [applyIPAddresses, href, hgrp, htimeout]

/-! ## Claim theorems C1 - C6 -/

/-- C1 (counterexample): a successful `CreateMachine` run in which the
server-reservation apply happens before the ignition-artifact apply — the
trace of the run with no IPAM entries is exactly the `ServerClaim` apply
followed by the `Secret` apply, refuting that the artifact write precedes
the reservation write. -/
theorem c1_counterexample :
    CreateMachine exEnvOk "ns" exReqNoIPAM =
      (.ok ⟨"ns/m1", "m1"⟩,
        [⟨.applyPatch, "ServerClaim", ⟨"ns", "m1"⟩⟩,
         ⟨.applyPatch, "Secret", ⟨"ns", "m1-ignition"⟩⟩]) := rfl

/-- C1 (amended): in every successful `CreateMachine` call the writes are
some claim creates followed by the server-reservation apply and only then
the ignition-artifact apply — the reservation write precedes the artifact
write that it references. -/
theorem c1_reservation_apply_precedes_artifact_apply (env : Env) (mns : String)
    (req : CreateMachineRequest) (r : CreateMachineResponse)
    (h : (CreateMachine env mns req).1 = .ok r) :
    ∃ pre k1 k2, (CreateMachine env mns req).2 =
      pre ++ [⟨.applyPatch, "ServerClaim", k1⟩, ⟨.applyPatch, "Secret", k2⟩] ∧
      OnlyClaimCreates pre :=
  createMachine_ok_decomp env mns req r h

/-- C1 (witness): the amended theorem at the concrete no-IPAM run. -/
theorem c1_witness :
    ∃ pre k1 k2, (CreateMachine exEnvOk "ns" exReqNoIPAM).2 =
      pre ++ [⟨.applyPatch, "ServerClaim", k1⟩, ⟨.applyPatch, "Secret", k2⟩] ∧
      OnlyClaimCreates pre :=
  c1_reservation_apply_precedes_artifact_apply exEnvOk "ns" exReqNoIPAM ⟨"ns/m1", "m1"⟩ rfl

/-- C2 (counterexample): a claim found unbound at the first read makes the
allocator fail immediately with "IP address claim isn't ready" after a
single read and no writes, even though the very next observation of the
same claim is bound (an allocator answering well within the poll deadline)
— refuting that the allocator enters a wait state and polls. -/
theorem c2_counterexample :
    applyCapiIPAddress exEnvLateBound "ns" exCfgEth0 "m1" 0 =
      (.error "IP address claim isn't ready", 1, []) ∧
    exEnvLateBound.claims 0 (claimKey "ns" "m1" "eth0") = .found exUnboundClaim ∧
    exEnvLateBound.claims 1 (claimKey "ns" "m1" "eth0") = .found exBoundClaim ∧
    exBoundClaim.status.addressRefName = "addr-1" := ⟨rfl, rfl, rfl, rfl⟩

/-- C2 (amended): a network reference whose address claim already exists
but is not yet bound fails immediately with the not-ready error, after
exactly one read and with no writes; the poll loop runs only for claims
created by the same call. -/
theorem c2_unbound_claim_fails_immediately (env : Env) (mns : String) (cfg : IPAMConfig)
    (name : String) (t : Nat) (c : IPAddressClaim)
    (hf : env.claims t (claimKey mns name cfg.metadataKey) = .found c)
    (hu : c.status.addressRefName = "") :
    applyCapiIPAddress env mns cfg name t =
      (.error "IP address claim isn't ready", t + 1, []) := by
  simp [applyCapiIPAddress, hf, hu]

/-- C2 (witness): the amended theorem at the concrete late-bound
environment. -/
theorem c2_witness :
    applyCapiIPAddress exEnvLateBound "ns" exCfgEth0 "m1" 0 =
      (.error "IP address claim isn't ready", 0 + 1, []) :=
  c2_unbound_claim_fails_immediately exEnvLateBound "ns" exCfgEth0 "m1" 0 exUnboundClaim rfl
    rfl

/-- C3 (counterexample): a network reference with no pool selector and no
existing claim is skipped silently by the allocation loop — the loop
succeeds with no metadata, no error and no writes, refuting that
allocation fails with a missing-pool-selector error. -/
theorem c3_counterexample :
    applyIPAddresses exEnvOk "ns" [exCfgNoRef] "m1" 0 = (.ok [], 0, []) ∧
    exEnvOk.claims 0 (claimKey "ns" "m1" "eth0") = .notFound ∧
    exCfgNoRef.ipamRef = none := ⟨rfl, rfl, rfl⟩

/-- C3 (amended): the allocation loop skips a reference whose `IPAMRef` is
absent (it contributes nothing to the result and issues no reads or
writes); only a direct `applyCapiIPAddress` call on such a reference with
an absent claim fails with the missing-`ipamRef` error — a path the loop
never takes. -/
theorem c3_absent_selector_skipped (env : Env) (mns : String) (cfg : IPAMConfig)
    (rest : List IPAMConfig) (name : String) (t : Nat) (hnone : cfg.ipamRef = none) :
    applyIPAddresses env mns (cfg :: rest) name t = applyIPAddresses env mns rest name t ∧
    (env.claims t (claimKey mns name cfg.metadataKey) = .notFound →
      applyCapiIPAddress env mns cfg name t =
        (.error "ipamRef of an ipamConfig is not set", t + 1, [])) := by
  constructor
  · simp [applyIPAddresses, hnone]
  · intro h0
    simp [applyCapiIPAddress, h0, hnone]

/-- C3 (witness): the amended theorem at a concrete selector-less
reference. -/
theorem c3_witness :
    (applyIPAddresses exEnvOk "ns" [exCfgNoRef] "m1" 5 =
      applyIPAddresses exEnvOk "ns" [] "m1" 5) ∧
    applyCapiIPAddress exEnvOk "ns" exCfgNoRef "m1" 5 =
      (.error "ipamRef of an ipamConfig is not set", 5 + 1, []) :=
  ⟨(c3_absent_selector_skipped exEnvOk "ns" exCfgNoRef [] "m1" 5 rfl).1,
   (c3_absent_selector_skipped exEnvOk "ns" exCfgNoRef [] "m1" 5 rfl).2 rfl⟩

/-- C4 (counterexample): a successful `CreateMachine` run whose trace
contains a plain create (of the IP address claim) — refuting that every
mutating write is a server-side apply. -/
theorem c4_counterexample :
    CreateMachine exEnvCreateBound "ns" exReqEth0 =
      (.ok ⟨"ns/m1", "m1"⟩,
        [⟨.create, "IPAddressClaim", ⟨"ns", "m1-eth0"⟩⟩,
         ⟨.applyPatch, "ServerClaim", ⟨"ns", "m1"⟩⟩,
         ⟨.applyPatch, "Secret", ⟨"ns", "m1-ignition"⟩⟩]) := rfl

/-- C4 (amended): every write of a `CreateMachine` call is either a plain
create of an IP address claim or a forced-ownership server-side apply of
the `ServerClaim` or the ignition `Secret`; the applies are used for the
reservation and artifact, but IP address claims are created with plain
`Create` (guarded by the preceding existence check). -/
theorem c4_claim_creates_and_forced_applies (env : Env) (mns : String)
    (req : CreateMachineRequest) :
    ∀ x ∈ (CreateMachine env mns req).2,
      (x.kind = WriteKind.create ∧ x.objKind = "IPAddressClaim") ∨
      (x.kind = WriteKind.applyPatch ∧
        (x.objKind = "ServerClaim" ∨ x.objKind = "Secret")) := by
  intro x hx
  obtain ⟨w1, w2, heq, hw1, hw2⟩ := createMachine_trace_shape env mns req
  rw [heq] at hx
  rcases List.mem_append.mp hx with hm | hm
  · exact .inl (hw1 x hm)
  · rcases hw2 with rfl | ⟨k, rfl⟩ | ⟨k1, k2, rfl⟩
    · simp at hm
    · simp at hm
      rw [hm]
      exact .inr ⟨rfl, .inl rfl⟩
    · rcases List.mem_cons.mp hm with rfl | hm2
      · exact .inr ⟨rfl, .inl rfl⟩
      · simp at hm2
        rw [hm2]
        exact .inr ⟨rfl, .inr rfl⟩

/-- C4 (witness): the amended theorem at the create write of the concrete
create-then-bound run. -/
theorem c4_witness :
    (⟨.create, "IPAddressClaim", ⟨"ns", "m1-eth0"⟩⟩ : WriteOp) ∈
      (CreateMachine exEnvCreateBound "ns" exReqEth0).2 ∧
    ((WriteOp.kind ⟨.create, "IPAddressClaim", ⟨"ns", "m1-eth0"⟩⟩ = WriteKind.create ∧
      WriteOp.objKind ⟨.create, "IPAddressClaim", ⟨"ns", "m1-eth0"⟩⟩ = "IPAddressClaim") ∨
     (WriteOp.kind ⟨.create, "IPAddressClaim", ⟨"ns", "m1-eth0"⟩⟩ = WriteKind.applyPatch ∧
      (WriteOp.objKind ⟨.create, "IPAddressClaim", ⟨"ns", "m1-eth0"⟩⟩ = "ServerClaim" ∨
       WriteOp.objKind ⟨.create, "IPAddressClaim", ⟨"ns", "m1-eth0"⟩⟩ = "Secret"))) :=
  ⟨List.Mem.head _,
   c4_claim_creates_and_forced_applies exEnvCreateBound "ns" exReqEth0 _ (List.Mem.head _)⟩

/-- C5: a reference handled by the CAPI allocator whose claim does not
exist at the first read issues exactly the one claim-create write; when
the claim is instead found already bound, the call issues no write at all
(reads only). -/
theorem c5_exactly_one_create_then_reads_only (env : Env) (mns : String) (cfg : IPAMConfig)
    (name : String) (t : Nat) (ref : IPAMRef) (href : cfg.ipamRef = some ref) :
    (env.claims t (claimKey mns name cfg.metadataKey) = .notFound →
      (applyCapiIPAddress env mns cfg name t).2.2 = [claimCreateOp mns name cfg.metadataKey]) ∧
    (∀ c, env.claims t (claimKey mns name cfg.metadataKey) = .found c →
      c.status.addressRefName ≠ "" →
      (applyCapiIPAddress env mns cfg name t).2.2 = []) := by
  constructor
  · intro h0
    rcases hcr : env.createRes (claimKey mns name cfg.metadataKey) with _ | e
    · rcases hp : pollUntilBound env (claimKey mns name cfg.metadataKey) (t + 1)
        pollAttempts with ⟨r, t2⟩
      cases r <;> simp [applyCapiIPAddress, h0, href, hcr, hp, resolveIPAddress_trace]
    · simp [applyCapiIPAddress, h0, href, hcr]
  · intro c hf hb
    simp [applyCapiIPAddress, hf, hb, resolveIPAddress_trace]

/-- C5 (witness): the theorem at the create-then-bound environment (first
call: one create) and at the already-bound environment (second call: no
writes). -/
theorem c5_witness :
    ((applyCapiIPAddress exEnvCreateBound "ns" exCfgEth0 "m1" 0).2.2 =
      [claimCreateOp "ns" "m1" "eth0"]) ∧
    (applyCapiIPAddress exEnvBound "ns" exCfgEth0 "m1" 0).2.2 = [] :=
  ⟨(c5_exactly_one_create_then_reads_only exEnvCreateBound "ns" exCfgEth0 "m1" 0
      ⟨capiAPIGroup, "InClusterIPPool", "pool-a"⟩ rfl).1 rfl,
   (c5_exactly_one_create_then_reads_only exEnvBound "ns" exCfgEth0 "m1" 0
      ⟨capiAPIGroup, "InClusterIPPool", "pool-a"⟩ rfl).2 exBoundClaim rfl
      (by decide)⟩

/-- C6: a claim that is created by the call and never observed bound makes
`CreateMachine` fail with the poll-deadline error; the only write of the
whole call is the claim create — in particular no server-reservation apply
happens afterward. -/
theorem c6_poll_timeout_blocks_reservation (env : Env) (mns : String) (m : Machine)
    (mc : MachineClass) (sec : MachineSecret) (spec : ProviderSpec) (cfg : IPAMConfig)
    (ref : IPAMRef)
    (hprov : mc.provider = ProviderName)
    (hraw : mc.providerSpecRaw = some spec)
    (hval : env.validSpec = true)
    (hcfgs : spec.ipamConfig = [cfg])
    (href : cfg.ipamRef = some ref)
    (hgrp : ref.apiGroup = capiAPIGroup)
    (h0 : env.claims 0 (claimKey mns m.name cfg.metadataKey) = .notFound)
    (hnb : ∀ u, notBoundObs (env.claims u (claimKey mns m.name cfg.metadataKey)) = true)
    (hcr : env.createRes (claimKey mns m.name cfg.metadataKey) = none) :
    CreateMachine env mns ⟨some m, some mc, some sec⟩ =
      (.error "context deadline exceeded", [claimCreateOp mns m.name cfg.metadataKey]) ∧
    ∀ x ∈ (CreateMachine env mns ⟨some m, some mc, some sec⟩).2,
      x.objKind ≠ "ServerClaim" := by
  have hip : applyIPAddresses env mns spec.ipamConfig m.name 0 =
      (.error "context deadline exceeded", 0 + 1 + pollAttempts,
        [claimCreateOp mns m.name cfg.metadataKey]) := by
    rw [hcfgs]
    exact applyIPAddresses_single_timeout env mns cfg m.name ref href hgrp h0 hnb hcr
  have heq : CreateMachine env mns ⟨some m, some mc, some sec⟩ =
      (.error "context deadline exceeded", [claimCreateOp mns m.name cfg.metadataKey]) := by
    simp [CreateMachine, hprov, validateProviderSpecAndSecret, hraw, hval, hip]
  refine ⟨heq, ?_⟩
  rw [heq]
  intro x hx
  simp at hx
  rw [hx]
  simp [claimCreateOp]

/-- C6 (witness): the theorem at the never-bound environment. -/
theorem c6_witness :
    (CreateMachine exEnvOk "ns" exReqEth0 =
      (.error "context deadline exceeded", [claimCreateOp "ns" "m1" "eth0"])) ∧
    ∀ x ∈ (CreateMachine exEnvOk "ns" exReqEth0).2, x.objKind ≠ "ServerClaim" :=
  c6_poll_timeout_blocks_reservation exEnvOk "ns" ⟨"m1"⟩ ⟨ProviderName, some exSpecEth0⟩
    ⟨[("userData", "ud")]⟩ exSpecEth0 exCfgEth0 ⟨capiAPIGroup, "InClusterIPPool", "pool-a"⟩
    rfl rfl rfl rfl rfl rfl rfl (fun _ => rfl) rfl

/-- C7: deep-merging the base `{"a":1,"b":{"x":1}}` with the fragments
`[{"b":{"x":2}}, {"c":3}]` in list order yields `{"a":1,"b":{"x":2},"c":3}`;
in general the fragments are folded into the base in list order, and for an
overlapping leaf key the later fragment wins. -/
theorem c7_deep_merge_determinism :
    (composeMetadata (JVal.obj [("a", .num 1), ("b", JVal.obj [("x", .num 1)])])
        [JVal.obj [("b", JVal.obj [("x", .num 2)])], JVal.obj [("c", .num 3)]] =
      JVal.obj [("a", .num 1), ("b", JVal.obj [("x", .num 2)]), ("c", .num 3)]) ∧
    (∀ (base f : JVal) (fs : List JVal),
      composeMetadata base (f :: fs) = composeMetadata (mergeVal base f) fs) ∧
    (∀ (d s : List (String × JVal)) (k : String) (v : JVal),
      lookupJ s k = some v → isLeafB v = true →
      ∃ fields, mergeVal (JVal.obj d) (JVal.obj s) = JVal.obj fields ∧
        lookupJ fields k = some v) := by
  refine ⟨?_, fun base f fs => rfl, fun d s k v hs hv => ?_⟩
  · simp [composeMetadata, mergeVal, mergeDst, srcExtras, lookupJ]
  · obtain ⟨h1, h2⟩ := lookupJ_mergeVal_obj d s k v hs hv
    exact ⟨_, h1, h2⟩

/-- C7 witness: the general parts of `c7_deep_merge_determinism`
instantiated at concrete inputs. -/
theorem c7_deep_merge_determinism_witness :
    (composeMetadata (JVal.obj [("g", .num 9)]) [JVal.obj [("k", .str "v")]] =
      composeMetadata (mergeVal (JVal.obj [("g", .num 9)]) (JVal.obj [("k", .str "v")])) []) ∧
    (∃ fields, mergeVal (JVal.obj [("g", .num 9)]) (JVal.obj [("k", .str "v")]) =
      JVal.obj fields ∧ lookupJ fields "k" = some (.str "v")) :=
  ⟨c7_deep_merge_determinism.2.1 (JVal.obj [("g", .num 9)]) (JVal.obj [("k", .str "v")]) [],
   c7_deep_merge_determinism.2.2 [("g", .num 9)] [("k", .str "v")] "k" (.str "v") rfl rfl⟩

/-! ## Claim theorems C8 - C10 -/

/-- C8: the generated claim name is `machineName ++ "-" ++ metadataKey`,
used unmodified when at or under the maximum length; a longer concatenation
is deterministically truncated to exactly the maximum length, so any two
inputs sharing the truncated length-253 head collide on the same claim
name. -/
theorem c8_name_truncation (m k : String) :
    (¬ DNS1123SubdomainMaxLength < (m ++ "-" ++ k).length →
      ipAddrClaimNameFor m k = m ++ "-" ++ k) ∧
    (DNS1123SubdomainMaxLength < (m ++ "-" ++ k).length →
      (ipAddrClaimNameFor m k).length = DNS1123SubdomainMaxLength) ∧
    (∀ m2 k2 : String, DNS1123SubdomainMaxLength < (m ++ "-" ++ k).length →
      DNS1123SubdomainMaxLength < (m2 ++ "-" ++ k2).length →
      (m ++ "-" ++ k).data.take DNS1123SubdomainMaxLength =
        (m2 ++ "-" ++ k2).data.take DNS1123SubdomainMaxLength →
      ipAddrClaimNameFor m k = ipAddrClaimNameFor m2 k2) := by
  refine ⟨?_, ?_, ?_⟩
  · intro h
    simp only [ipAddrClaimNameFor]
    rw [if_neg h]
  · intro h
    have hlen : DNS1123SubdomainMaxLength < (m ++ "-" ++ k).data.length := h
    simp only [ipAddrClaimNameFor]
    rw [if_pos h]
    show ((m ++ "-" ++ k).data.take DNS1123SubdomainMaxLength).length =
      DNS1123SubdomainMaxLength
    rw [List.length_take]
    omega
  · intro m2 k2 h1 h2 he
    simp only [ipAddrClaimNameFor]
    rw [if_pos h1, if_pos h2, he]

set_option maxRecDepth 40000 in
/-- C8 (witness): a 300-character machine name with keys `eth0` and `eth1`
truncates to length 253 and collides; a short name is unmodified. -/
theorem c8_name_truncation_witness :
    ipAddrClaimNameFor "m1" "eth0" = "m1" ++ "-" ++ "eth0" ∧
    (ipAddrClaimNameFor exLongName "eth0").length = DNS1123SubdomainMaxLength ∧
    ipAddrClaimNameFor exLongName "eth0" = ipAddrClaimNameFor exLongName "eth1" :=
  ⟨(c8_name_truncation "m1" "eth0").1 (by decide),
   (c8_name_truncation exLongName "eth0").2.1 (by decide),
   (c8_name_truncation exLongName "eth0").2.2 exLongName "eth1" (by decide) (by decide)
     (by decide)⟩

/-- C9: a kubeconfig-change event whose reload chain does not fully
succeed (reading the config, deriving the rest config, or constructing the
new client fails) leaves the provider's shared client handle exactly as it
was before the event. -/
theorem c9_failed_reload_retains_handle (p : ProviderState) (path ev : String)
    (g : Except String Nat) (co : Nat → Except String Nat)
    (cn : Nat → Except String ClientHandle)
    (hfail : ∀ cfg, g = .ok cfg → ∀ rc, co cfg = .ok rc → ∀ c, cn rc ≠ .ok c) :
    handleConfigChangeEvent p path ev g co cn = p := by
  unfold handleConfigChangeEvent
  by_cases hev : ev = path
  · rw [if_pos hev]
    cases hg : g with
    | error e => rfl
    | ok cfg =>
      dsimp only
      unfold setMetalClient
      cases hco : co cfg with
      | error e => rfl
      | ok rc =>
        dsimp only
        cases hcn : cn rc with
        | error e => rfl
        | ok c => exact absurd hcn (hfail cfg hg rc hco c)
  · rw [if_neg hev]

/-- C9 (witness): a rotation whose config read fails leaves the installed
handle `7` in place. -/
theorem c9_failed_reload_retains_handle_witness :
    handleConfigChangeEvent ⟨some ⟨7⟩⟩ "/etc/metal/kubeconfig" "/etc/metal/kubeconfig"
      (.error "read failed") (fun c => .ok c) (fun _ => .error "no client") = ⟨some ⟨7⟩⟩ :=
  c9_failed_reload_retains_handle ⟨some ⟨7⟩⟩ "/etc/metal/kubeconfig" "/etc/metal/kubeconfig"
    (.error "read failed") (fun c => .ok c) (fun _ => .error "no client")
    (fun cfg hg => Except.noConfusion hg)

/-- Every interleaved step preserves `HandleSafe`. -/
theorem sysStep_handleSafe {s s2 : SysState} (hs : HandleSafe s) (hstep : SysStep s s2) :
    HandleSafe s2 := by
  obtain ⟨⟨h0, hh⟩, hr⟩ := hs
  cases hstep with
  | readerAcquire i hl hi =>
    refine ⟨⟨h0, hh⟩, fun j obs hj => ?_⟩
    by_cases hij : j = i
    · subst hij
      simp only [updReaders, if_pos rfl] at hj
      simp at hj
    · simp only [updReaders, if_neg hij] at hj
      exact hr j obs hj
  | readerRead i hl hi =>
    refine ⟨⟨h0, hh⟩, fun j obs hj => ?_⟩
    by_cases hij : j = i
    · subst hij
      simp only [updReaders, if_pos rfl] at hj
      injection hj with h2
      exact ⟨h0, h2 ▸ hh⟩
    · simp only [updReaders, if_neg hij] at hj
      exact hr j obs hj
  | readerRelease i obs hl hi =>
    refine ⟨⟨h0, hh⟩, fun j obs2 hj => ?_⟩
    by_cases hij : j = i
    · subst hij
      simp only [updReaders, if_pos rfl] at hj
      simp at hj
    · simp only [updReaders, if_neg hij] at hj
      exact hr j obs2 hj
  | writerAcquire hl hw => exact ⟨⟨h0, hh⟩, hr⟩
  | writerAssign c hl hw => exact ⟨⟨c, rfl⟩, hr⟩
  | writerRelease hl => exact ⟨⟨h0, hh⟩, hr⟩

/-- While a reader holds the lock, no step changes the shared handle. -/
theorem sysStep_frame {s s2 : SysState} (i : Nat) (hl : s.lock = some (.reader i))
    (hstep : SysStep s s2) : s2.handle = s.handle := by
  cases hstep with
  | readerAcquire j h1 h2 => rfl
  | readerRead j h1 h2 => rfl
  | readerRelease j obs h1 h2 => rfl
  | writerAcquire h1 h2 => rfl
  | writerAssign c h1 h2 =>
    rw [hl] at h1
    simp at h1
  | writerRelease h1 => rfl

/-- C10: from a successfully initialized provider, under every interleaving
of concurrent requests (readers) and credential reloads (the writer), the
shared handle is always a fully built client — never nil — every completed
read observed a fully built client, and while any request holds the
provider mutex no step can change the handle it observes: each request
sees exactly one fully built client. -/
theorem c10_concurrent_reload_safety (c0 : ClientHandle) (s : SysState)
    (h : SysReachable c0 s) :
    HandleSafe s ∧
    ∀ (i : Nat) (s2 : SysState), s.lock = some (.reader i) → SysStep s s2 →
      s2.handle = s.handle := by
  refine ⟨?_, fun i s2 hl hstep => sysStep_frame i hl hstep⟩
  induction h with
  | refl => exact ⟨⟨c0, rfl⟩, fun i obs hobs => by simp [initialSys] at hobs⟩
  | tail hab hbc ih => exact sysStep_handleSafe ih hbc

/-- C10 (witness): the theorem at the freshly initialized system. -/
theorem c10_concurrent_reload_safety_witness :
    HandleSafe (initialSys ⟨0⟩) ∧
    ∀ (i : Nat) (s2 : SysState), (initialSys ⟨0⟩).lock = some (.reader i) →
      SysStep (initialSys ⟨0⟩) s2 → s2.handle = (initialSys ⟨0⟩).handle :=
  c10_concurrent_reload_safety ⟨0⟩ (initialSys ⟨0⟩) Relation.ReflTransGen.refl

end IroncoreMetal
